import Mathlib

/-!
Verification of the usage telemetry engine of `claude-usage-bar`
(`src/claude-usage-bar/src-tauri/src/lib.rs`).

The Rust code is shallowly embedded as executable Lean definitions:

* Strings are processed as `List Char` (via `String.data`) with structural
  recursion, mirroring the `str` operations used by the source
  (`trim`, `to_lowercase`, `ends_with`, `trim_end_matches`, `split`,
  `split_whitespace`, `contains`, `u32::parse`).  `u32::from_str` accepts an
  optional leading plus sign and then decimal digits, and fails when the
  value exceeds `u32::MAX`; that overflow bound is observable — a minute
  literal of 2^32 or more makes the minute parse fail, and the code's
  `unwrap_or(0)` then substitutes minute 0 — so it is modelled exactly.
* `chrono` local datetimes are embedded as naive calendar datetimes
  (year/month/day/hour/minute).  Local-timezone resolution
  (`Local.from_local_datetime(..).single()`) is modelled as always single
  (no DST transitions), and `NaiveDate::succ_opt` as total (the failure is
  only at the maximal representable year).  Comparison of datetimes is the
  lexicographic order on (year, month, day, hour, minute), which is chrono's
  order on naive local datetimes in the absence of DST.
* `chrono::Duration` values are embedded as a signed number of seconds;
  `num_hours` / `num_minutes` truncate toward zero exactly as in chrono.
* The single `f32` computation in `get_status_indicator_paced`
  (`((elapsed as f32 / period as f32) * 100.0) as i32`) is modelled as exact
  rational arithmetic followed by truncation toward zero
  (`(elapsed * 100).tdiv period`); for the period lengths the program uses
  (4 and 168 hours) the two agree.
-/

/-- Decimal digit accumulator used by `parseU32` (`u32::from_str` on the
digit part). -/
def digitsToNat : List Char → Nat → Option Nat
  | [], acc => some acc
  | c :: cs, acc =>
    if c.isDigit then digitsToNat cs (10 * acc + (c.toNat - 48)) else none

/-- Embedding of Rust `str::parse::<u32>()`: optional leading plus sign, then
one or more decimal digits, failing on overflow past `u32::MAX`. -/
def parseU32 (l : List Char) : Option Nat :=
  let l' := match l with
    | '+' :: rest => rest
    | _ => l
  match l' with
  | [] => none
  | _ =>
    match digitsToNat l' 0 with
    | none => none
    | some n => if n < 2 ^ 32 then some n else none

/-- Embedding of `str::trim` (whitespace stripped from both ends). -/
def trimList (l : List Char) : List Char :=
  ((l.dropWhile Char.isWhitespace).reverse.dropWhile Char.isWhitespace).reverse

/-- Embedding of `str::to_lowercase` (ASCII case folding suffices for the
grammar accepted by the parser). -/
def lowerStr (l : List Char) : List Char :=
  l.map Char.toLower

/-- Embedding of `str::ends_with("pm")`. -/
def endsWithPm (l : List Char) : Bool :=
  match l.reverse with
  | 'm' :: 'p' :: _ => true
  | _ => false

/-- Embedding of `str::ends_with("am")`. -/
def endsWithAm (l : List Char) : Bool :=
  match l.reverse with
  | 'm' :: 'a' :: _ => true
  | _ => false

/-- Helper for `trim_end_matches("pm")`: strips every leading `['m','p']`
from the reversed character list. -/
def stripAllPmRev : List Char → List Char
  | 'm' :: 'p' :: rest => stripAllPmRev rest
  | l => l

/-- Embedding of `str::trim_end_matches("pm")` (removes all trailing
occurrences, as the Rust function does). -/
def stripAllPm (l : List Char) : List Char :=
  (stripAllPmRev l.reverse).reverse

/-- Helper for `trim_end_matches("am")` on the reversed list. -/
def stripAllAmRev : List Char → List Char
  | 'm' :: 'a' :: rest => stripAllAmRev rest
  | l => l

/-- Embedding of `str::trim_end_matches("am")`. -/
def stripAllAm (l : List Char) : List Char :=
  (stripAllAmRev l.reverse).reverse

/-- Splitting on a character predicate, keeping empty pieces — the shape
shared by Rust `str::split(char)` and (after filtering) `split_whitespace`. -/
def splitOnPred (p : Char → Bool) : List Char → List (List Char)
  | [] => [[]]
  | c :: rest =>
    let r := splitOnPred p rest
    if p c then [] :: r
    else
      match r with
      | h :: t => (c :: h) :: t
      | [] => [[c]]

/-- Embedding of Rust `str::split(':')`. -/
def splitOnColon (l : List Char) : List (List Char) :=
  splitOnPred (fun c => c == ':') l

/-- Embedding of Rust `str::split_whitespace` (whitespace runs separate
pieces; empty pieces are discarded). -/
def splitWs (l : List Char) : List (List Char) :=
  (splitOnPred Char.isWhitespace l).filter (fun x => !x.isEmpty)

/-- Embedding of Rust `str::split(" at ")`: split on each non-overlapping
occurrence of the four-character separator, scanning left to right. -/
def splitAtSep : List Char → List (List Char)
  | ' ' :: 'a' :: 't' :: ' ' :: rest => [] :: splitAtSep rest
  | c :: rest =>
    match splitAtSep rest with
    | h :: t => (c :: h) :: t
    | [] => [[c]]
  | [] => [[]]

/-- Embedding of Rust `str::contains(" at ")`. -/
def containsAtSep : List Char → Bool
  | ' ' :: 'a' :: 't' :: ' ' :: _ => true
  | _ :: rest => containsAtSep rest
  | [] => false

/-- Does `needle` occur at the head of `hay`?  (Helper for `str::contains`.) -/
def leadsWith : List Char → List Char → Bool
  | [], _ => true
  | _ :: _, [] => false
  | a :: as, b :: bs => a == b && leadsWith as bs

/-- Embedding of Rust `str::contains(needle)` for a general needle. -/
def containsList (needle : List Char) : List Char → Bool
  | [] => leadsWith needle []
  | c :: rest => leadsWith needle (c :: rest) || containsList needle rest

/-- A wall-clock time of day, as produced by `chrono::NaiveTime` (the parser
always passes 0 seconds). -/
structure NTime where
  hour : Nat
  minute : Nat
deriving DecidableEq

/-- A calendar date, as in `chrono::NaiveDate`. -/
structure CalDate where
  year : Int
  month : Nat
  day : Nat
deriving DecidableEq

/-- A naive local calendar datetime (`chrono::DateTime<Local>` without DST). -/
structure CalDateTime where
  date : CalDate
  time : NTime
deriving DecidableEq

/-- Strict lexicographic order on naive datetimes — chrono's comparison of
local datetimes in the no-DST model. -/
def dtLt (a b : CalDateTime) : Prop :=
  a.date.year < b.date.year ∨ (a.date.year = b.date.year ∧
   (a.date.month < b.date.month ∨ (a.date.month = b.date.month ∧
    (a.date.day < b.date.day ∨ (a.date.day = b.date.day ∧
     (a.time.hour < b.time.hour ∨ (a.time.hour = b.time.hour ∧
      a.time.minute < b.time.minute)))))))

instance (a b : CalDateTime) : Decidable (dtLt a b) := by
  unfold dtLt
  exact inferInstance

/-- Non-strict order on naive datetimes (`a ≤ b` iff not `b < a`). -/
def dtLe (a b : CalDateTime) : Prop :=
  ¬ dtLt b a

/-- Embedding of chrono's leap-year rule. -/
def isLeapYear (y : Int) : Bool :=
  (y % 4 == 0 && y % 100 != 0) || y % 400 == 0

/-- Days in a calendar month (Gregorian, as used by
`chrono::NaiveDate::from_ymd_opt`). -/
def daysInMonth (y : Int) (m : Nat) : Nat :=
  if m == 2 then (if isLeapYear y then 29 else 28)
  else if m == 4 || m == 6 || m == 9 || m == 11 then 30
  else 31

/-- Embedding of `chrono::NaiveDate::from_ymd_opt`: `some` exactly for real
calendar dates. -/
def from_ymd_opt (y : Int) (m d : Nat) : Option CalDate :=
  if 1 ≤ m ∧ m ≤ 12 ∧ 1 ≤ d ∧ d ≤ daysInMonth y m then some ⟨y, m, d⟩
  else none

/-- Embedding of `chrono::NaiveDate::succ_opt` (total in the model: the Rust
function fails only at the maximal representable year). -/
def succDate (d : CalDate) : CalDate :=
  if d.day + 1 ≤ daysInMonth d.year d.month then ⟨d.year, d.month, d.day + 1⟩
  else if d.month + 1 ≤ 12 then ⟨d.year, d.month + 1, 1⟩
  else ⟨d.year + 1, 1, 1⟩

/-- The datetime exactly 24 hours after `dt` (same time of day, next calendar
day). -/
def addOneDay (dt : CalDateTime) : CalDateTime :=
  ⟨succDate dt.date, dt.time⟩

/-- The part of the `parse_time` closure after the suffix has been
recognized and stripped (lib.rs lines 368–373): split on `:`, parse hour
and optional minute (an unparsable minute — bad digits or u32 overflow —
defaults to 0, as `unwrap_or(0)` does), convert to a 24-hour value, and
range-check via `NaiveTime::from_hms_opt`. -/
def parse_time_tail (time_str : List Char) (is_pm : Bool) : Option NTime :=
  let parts := splitOnColon time_str
  match parts[0]? >>= parseU32 with
  | none => none
  | some hour0 =>
    let minute := ((parts[1]?).bind parseU32).getD 0
    let hour :=
      if is_pm && hour0 != 12 then hour0 + 12
      else if !is_pm && hour0 == 12 then 0
      else hour0
    if hour < 24 && minute < 60 then some ⟨hour, minute⟩ else none

/-- Embedding of the inner `parse_time` closure of `parse_reset_time`
(lib.rs lines 358–374): trim and lowercase, require an `am`/`pm` suffix
(stripping every trailing occurrence, as `trim_end_matches` does), then
parse the remainder with `parse_time_tail`. -/
def parse_time_core (l : List Char) : Option NTime :=
  let s := lowerStr (trimList l)
  if endsWithPm s then parse_time_tail (stripAllPm s) true
  else if endsWithAm s then parse_time_tail (stripAllAm s) false
  else none

/-- Embedding of the month-abbreviation match in `parse_reset_time`
(lib.rs lines 386–391); the argument is already lowercased by the caller. -/
def monthNum (l : List Char) : Option Nat :=
  if l == "jan".data then some 1
  else if l == "feb".data then some 2
  else if l == "mar".data then some 3
  else if l == "apr".data then some 4
  else if l == "may".data then some 5
  else if l == "jun".data then some 6
  else if l == "jul".data then some 7
  else if l == "aug".data then some 8
  else if l == "sep".data then some 9
  else if l == "oct".data then some 10
  else if l == "nov".data then some 11
  else if l == "dec".data then some 12
  else none

/-- The year-inference step of the dated branch of `parse_reset_time`
(lib.rs lines 393–397). -/
def infer_year (now : CalDateTime) (month day : Nat) : Int :=
  if month < now.date.month || (month == now.date.month && day < now.date.day)
  then now.date.year + 1
  else now.date.year

/-- Embedding of `parse_reset_time` (lib.rs lines 352–420), with "now"
passed explicitly.  A phrase containing `" at "` is parsed as
`<Mon> <day> at <time>` with the year inferred by `infer_year`; otherwise it
is parsed as a bare time resolved to today, rolled over to tomorrow when the
resulting instant is strictly before now. -/
def parse_reset_time (now : CalDateTime) (resets : String) : Option CalDateTime :=
  let l := resets.data
  if containsAtSep l then
    match splitAtSep l with
    | [p0, p1] =>
      let date_str := trimList p0
      let time_str := trimList p1
      match splitWs date_str with
      | [mon, dayStr] =>
        match monthNum (lowerStr mon) with
        | none => none
        | some month =>
          match parseU32 dayStr with
          | none => none
          | some day =>
            let year := infer_year now month day
            match parse_time_core time_str with
            | none => none
            | some t =>
              match from_ymd_opt year month day with
              | none => none
              | some date => some ⟨date, t⟩
      | _ => none
    | _ => none
  else
    match parse_time_core l with
    | none => none
    | some t =>
      let result : CalDateTime := ⟨now.date, t⟩
      if dtLt result now then some ⟨succDate now.date, t⟩
      else some result

/-- The resolution rule of the bare-time branch, as a named function: today
at the parsed time, or tomorrow when that instant is strictly before now. -/
def bare_resolution (now : CalDateTime) (t : NTime) : CalDateTime :=
  if dtLt ⟨now.date, t⟩ now then ⟨succDate now.date, t⟩ else ⟨now.date, t⟩

/-- Embedding of the `UsageItem` struct (lib.rs lines 29–33): one quota
bucket's last known reading. -/
structure UsageItem where
  percent : Option Int
  resets : Option String
deriving DecidableEq

/-- Embedding of the `UsageData` struct (lib.rs lines 19–27): one fetched
snapshot of the three buckets, or a failure with `error` set. -/
structure UsageData where
  timestamp : Option String
  session : UsageItem
  weekly_all : UsageItem
  weekly_sonnet : UsageItem
  error : Option String
deriving DecidableEq

/-- Embedding of the `AppState` struct (lib.rs lines 35–42): the shared
engine state behind the mutex. -/
structure AppState where
  usage : UsageData
  last_error : Option String
  has_network : Bool
  consecutive_errors : Nat
  show_percentages : Bool
deriving DecidableEq

/-- The connectivity failure marker matched by substring in the scheduler
loop (lib.rs line 757). -/
def noNetworkNeedle : List Char := "No network".data

/-- Embedding of the state update performed by one cycle of the scheduled
loop (lib.rs lines 751–765), restricted to the mutex-guarded state (the
cache/history writes and tray notification are external effects). -/
def scheduler_update (st : AppState) (data : UsageData) : AppState :=
  match data.error with
  | some err =>
    { st with
      last_error := some err
      consecutive_errors := st.consecutive_errors + 1
      has_network := !containsList noNetworkNeedle err.data }
  | none =>
    { st with
      usage := data
      last_error := none
      consecutive_errors := 0
      has_network := true }

/-- Embedding of the state update performed by the `refresh_usage` Tauri
command (lib.rs lines 217–226). -/
def refresh_usage_update (st : AppState) (data : UsageData) : AppState :=
  if data.error.isNone then
    { st with usage := data, last_error := none }
  else
    { st with last_error := data.error }

/-- Embedding of the state update performed by the tray-menu "Refresh Now"
handler (lib.rs lines 706–716). -/
def menu_refresh_update (st : AppState) (data : UsageData) : AppState :=
  match data.error with
  | some err => { st with last_error := some err }
  | none =>
    { st with usage := data, last_error := none, consecutive_errors := 0 }

/-- Embedding of the backoff computation of the scheduler loop
(lib.rs lines 741–745): seconds to sleep before the next poll, as a function
of the consecutive-failure count. -/
def sleep_secs (consecutive_errors : Nat) : Nat :=
  if consecutive_errors > 0 then 600 * min consecutive_errors 3
  else 600

/-- The wait performed at the top of a scheduler cycle (lib.rs lines
738–749): nothing on the very first cycle after startup, `sleep_secs`
otherwise. -/
def scheduler_wait (first_run : Bool) (consecutive_errors : Nat) : Nat :=
  if first_run then 0 else sleep_secs consecutive_errors

/-- Embedding of `format_duration` (lib.rs lines 422–439).  The
`chrono::Duration` argument is a signed number of seconds; `num_hours`,
`num_minutes` and the `/`, `%` operators all truncate toward zero. -/
def format_duration (secs : Int) : String :=
  let total_hours := secs.tdiv 3600
  let days := total_hours.tdiv 24
  let hours := total_hours.tmod 24
  if days > 0 then
    toString days ++ "d " ++ toString hours ++ "h left"
  else if hours > 0 then
    toString hours ++ "h left"
  else
    let mins := secs.tdiv 60
    if mins > 0 then toString mins ++ "m left"
    else "soon"

/-- Spec-side duration formatter, following the claim's words: with
`days = floor(totalHours / 24)` and `hours = totalHours mod 24`, print
days+hours, else hours, else minutes, else "soon". -/
def format_duration_spec (secs : Int) : String :=
  let totalHours := secs.fdiv 3600
  let days := totalHours.fdiv 24
  let hours := totalHours.emod 24
  if days > 0 then
    toString days ++ "d " ++ toString hours ++ "h left"
  else if hours > 0 then
    toString hours ++ "h left"
  else
    let minutes := secs.fdiv 60
    if minutes > 0 then toString minutes ++ "m left"
    else "soon"

/-- A stored state with a good snapshot, used as a concrete test input. -/
def exSt : AppState :=
  { usage :=
      { timestamp := some "2026-01-28T14:00:00"
        session := { percent := some 25, resets := some "3pm" }
        weekly_all := { percent := some 50, resets := some "Jan 29 at 5pm" }
        weekly_sonnet := { percent := some 10, resets := none }
        error := none }
    last_error := none
    has_network := true
    consecutive_errors := 0
    show_percentages := true }

/-- The same stored state after some failures: network considered down and
five consecutive errors. -/
def exStDown : AppState :=
  { exSt with has_network := false, consecutive_errors := 5 }

/-- A failed fetch whose message does not mention the connectivity marker. -/
def exFail : UsageData :=
  { timestamp := none
    session := { percent := none, resets := none }
    weekly_all := { percent := none, resets := none }
    weekly_sonnet := { percent := none, resets := none }
    error := some "Script failed: exit status 1" }

/-- A successful fetch result. -/
def exOk : UsageData :=
  { timestamp := some "2026-01-28T15:00:00"
    session := { percent := some 30, resets := some "7pm" }
    weekly_all := { percent := some 55, resets := some "Jan 30 at 5pm" }
    weekly_sonnet := { percent := some 12, resets := none }
    error := none }

/-- C1: when the fetched snapshot has `error` set, the scheduled loop, the
`refresh_usage` command and the menu refresh handler all leave the stored
snapshot — in particular the `percent` and `resets` fields of all three
buckets — unchanged, and also leave `show_percentages` unchanged, so only
`last_error`, `consecutive_errors` and `has_network` can change. -/
theorem error_never_overwrites_snapshot (st : AppState) (data : UsageData)
    (err : String) (h : data.error = some err) :
    (scheduler_update st data).usage = st.usage ∧
    (refresh_usage_update st data).usage = st.usage ∧
    (menu_refresh_update st data).usage = st.usage ∧
    (scheduler_update st data).usage.session.percent = st.usage.session.percent ∧
    (scheduler_update st data).usage.session.resets = st.usage.session.resets ∧
    (scheduler_update st data).usage.weekly_all.percent = st.usage.weekly_all.percent ∧
    (scheduler_update st data).usage.weekly_all.resets = st.usage.weekly_all.resets ∧
    (scheduler_update st data).usage.weekly_sonnet.percent = st.usage.weekly_sonnet.percent ∧
    (scheduler_update st data).usage.weekly_sonnet.resets = st.usage.weekly_sonnet.resets ∧
    (refresh_usage_update st data).usage.session.percent = st.usage.session.percent ∧
    (refresh_usage_update st data).usage.session.resets = st.usage.session.resets ∧
    (refresh_usage_update st data).usage.weekly_all.percent = st.usage.weekly_all.percent ∧
    (refresh_usage_update st data).usage.weekly_all.resets = st.usage.weekly_all.resets ∧
    (refresh_usage_update st data).usage.weekly_sonnet.percent = st.usage.weekly_sonnet.percent ∧
    (refresh_usage_update st data).usage.weekly_sonnet.resets = st.usage.weekly_sonnet.resets ∧
    (menu_refresh_update st data).usage.session.percent = st.usage.session.percent ∧
    (menu_refresh_update st data).usage.session.resets = st.usage.session.resets ∧
    (menu_refresh_update st data).usage.weekly_all.percent = st.usage.weekly_all.percent ∧
    (menu_refresh_update st data).usage.weekly_all.resets = st.usage.weekly_all.resets ∧
    (menu_refresh_update st data).usage.weekly_sonnet.percent = st.usage.weekly_sonnet.percent ∧
    (menu_refresh_update st data).usage.weekly_sonnet.resets = st.usage.weekly_sonnet.resets ∧
    (scheduler_update st data).show_percentages = st.show_percentages ∧
    (refresh_usage_update st data).show_percentages = st.show_percentages ∧
    (menu_refresh_update st data).show_percentages = st.show_percentages := by
  simp [scheduler_update, refresh_usage_update, menu_refresh_update, h]

/-- Witness for C1: the frame property evaluated on a concrete failed fetch
against a concrete stored state. -/
theorem error_never_overwrites_snapshot_witness :
    exFail.error = some "Script failed: exit status 1" ∧
    (scheduler_update exSt exFail).usage = exSt.usage ∧
    (refresh_usage_update exSt exFail).usage = exSt.usage ∧
    (menu_refresh_update exSt exFail).usage = exSt.usage :=
  ⟨rfl,
   (error_never_overwrites_snapshot exSt exFail _ rfl).1,
   (error_never_overwrites_snapshot exSt exFail _ rfl).2.1,
   (error_never_overwrites_snapshot exSt exFail _ rfl).2.2.1⟩

/-- Counterexample for C2: with the network flag previously `false`, a
failure whose text does not contain the connectivity marker sets
`has_network` to `true` instead of keeping the previous value. -/
theorem network_flag_not_preserved_counterexample :
    exStDown.has_network = false ∧
    exFail.error = some "Script failed: exit status 1" ∧
    containsList noNetworkNeedle "Script failed: exit status 1".data = false ∧
    (scheduler_update exStDown exFail).has_network = true := by
  decide

/-- C2 (amended): on a failed scheduled poll the network flag is recomputed
from the failure text alone — `false` exactly when the text contains the
connectivity marker `"No network"`, and `true` otherwise, regardless of the
previous value. -/
theorem scheduler_failure_network_flag (st : AppState) (data : UsageData)
    (err : String) (h : data.error = some err) :
    (scheduler_update st data).has_network
      = !containsList noNetworkNeedle err.data ∧
    ((scheduler_update st data).has_network = false ↔
      containsList noNetworkNeedle err.data = true) := by
  constructor
  · simp [scheduler_update, h]
  · simp [scheduler_update, h]

/-- Witness for C2's amended theorem at a concrete failure text. -/
theorem scheduler_failure_network_flag_witness :
    exFail.error = some "Script failed: exit status 1" ∧
    (scheduler_update exStDown exFail).has_network
      = !containsList noNetworkNeedle "Script failed: exit status 1".data :=
  ⟨rfl, (scheduler_failure_network_flag exStDown exFail _ rfl).1⟩

/-- Counterexample for C3: a "refresh now" poll does not apply the
scheduler's rules — on success the `refresh_usage` command leaves
`consecutive_errors` at 5 (the scheduler would reset it to 0), the menu
handler leaves `has_network` at `false` (the scheduler would set it
`true`), and on failure neither path increments `consecutive_errors`. -/
theorem refresh_not_same_rules_counterexample :
    exOk.error = none ∧
    exStDown.consecutive_errors = 5 ∧
    (refresh_usage_update exStDown exOk).consecutive_errors = 5 ∧
    (menu_refresh_update exStDown exOk).has_network = false ∧
    (refresh_usage_update exStDown exFail).consecutive_errors = 5 ∧
    (menu_refresh_update exStDown exFail).consecutive_errors = 5 ∧
    (scheduler_update exStDown exOk).consecutive_errors = 0 ∧
    (scheduler_update exStDown exOk).has_network = true ∧
    (scheduler_update exStDown exFail).consecutive_errors = 6 := by
  decide

/-- C3 (amended): a "refresh now" poll stores a successful snapshot and
clears `last_error` like a scheduled poll, but applies weaker rules
otherwise — the `refresh_usage` command never touches `consecutive_errors`
or `has_network`; the menu handler resets `consecutive_errors` to 0 on
success but never touches `has_network`; on failure both paths set only
`last_error`. -/
theorem refresh_paths_update_rules (st : AppState) (data : UsageData) :
    (data.error = none →
      refresh_usage_update st data
        = { st with usage := data, last_error := none } ∧
      menu_refresh_update st data
        = { st with usage := data, last_error := none,
                    consecutive_errors := 0 }) ∧
    (∀ err, data.error = some err →
      refresh_usage_update st data = { st with last_error := some err } ∧
      menu_refresh_update st data = { st with last_error := some err }) := by
  constructor
  · intro h
    constructor <;> simp [refresh_usage_update, menu_refresh_update, h]
  · intro err h
    constructor <;> simp [refresh_usage_update, menu_refresh_update, h]

/-- Witness for C3's amended theorem on a concrete successful fetch. -/
theorem refresh_paths_update_rules_witness :
    exOk.error = none ∧
    refresh_usage_update exStDown exOk
      = { exStDown with usage := exOk, last_error := none } ∧
    menu_refresh_update exStDown exOk
      = { exStDown with usage := exOk, last_error := none,
                        consecutive_errors := 0 } :=
  ⟨rfl,
   ((refresh_paths_update_rules exStDown exOk).1 rfl).1,
   ((refresh_paths_update_rules exStDown exOk).1 rfl).2⟩

/-- C4: the scheduler's wait is `600 * min(consecutiveErrors, 3)` seconds
when there are consecutive errors and 600 seconds otherwise; the resulting
backoff sequence is 600, 1200, 1800, 1800, …, never exceeding 1800 seconds,
and the very first cycle after startup performs no wait at all. -/
theorem scheduler_backoff_policy (k : Nat) (hk : 0 < k) :
    sleep_secs k = 600 * min k 3 ∧
    sleep_secs k ≤ 1800 ∧
    (3 ≤ k → sleep_secs k = 1800) ∧
    sleep_secs 0 = 600 ∧
    sleep_secs 1 = 600 ∧
    sleep_secs 2 = 1200 ∧
    sleep_secs 3 = 1800 ∧
    sleep_secs 4 = 1800 ∧
    sleep_secs 100 = 1800 ∧
    scheduler_wait true k = 0 ∧
    scheduler_wait false k = sleep_secs k := by
  have h1 : sleep_secs k = 600 * min k 3 := by
    unfold sleep_secs
    rw [if_pos hk]
  refine ⟨h1, ?_, ?_, by decide, by decide, by decide, by decide, by decide,
          by decide, rfl, rfl⟩
  · rw [h1]; omega
  · intro h3; rw [h1]; omega

/-- Witness for C4 at two consecutive errors. -/
theorem scheduler_backoff_policy_witness :
    0 < 2 ∧ sleep_secs 2 = 600 * min 2 3 ∧ scheduler_wait true 2 = 0 :=
  ⟨by decide, (scheduler_backoff_policy 2 (by decide)).1,
   (scheduler_backoff_policy 2 (by decide)).2.2.2.2.2.2.2.2.2.1⟩

/-- C9: for non-negative durations `format_duration` agrees with the
spec's rule (`days = floor(totalHours/24)`, `hours = totalHours mod 24`,
then days+hours / hours / minutes / "soon" in that order), and on the
spec's concrete examples: 25h → "1d 1h left", 49h → "2d 1h left",
30s → "soon", 0 → "soon"; zero and negative durations print "soon". -/
theorem format_duration_conforms (s : Int) (hs : 0 ≤ s) :
    format_duration s = format_duration_spec s ∧
    format_duration (25 * 3600) = "1d 1h left" ∧
    format_duration (49 * 3600) = "2d 1h left" ∧
    format_duration 30 = "soon" ∧
    format_duration 0 = "soon" ∧
    format_duration 59 = "soon" ∧
    format_duration 60 = "1m left" ∧
    format_duration (-25 * 3600) = "soon" := by
  refine ⟨?_, by decide, by decide, by decide, by decide, by decide,
          by decide, by decide⟩
  have h3600 : (0 : Int) ≤ 3600 := by norm_num
  have h24 : (0 : Int) ≤ 24 := by norm_num
  have h60 : (0 : Int) ≤ 60 := by norm_num
  have hq : 0 ≤ s.tdiv 3600 := Int.tdiv_nonneg hs h3600
  simp only [format_duration, format_duration_spec]
  rw [Int.fdiv_eq_tdiv hs h3600, Int.fdiv_eq_tdiv hq h24,
    Int.tmod_eq_emod hq h24, Int.fdiv_eq_tdiv hs h60]
  rfl

/-- Witness for C9 at 25 hours. -/
theorem format_duration_conforms_witness :
    (0 : Int) ≤ 25 * 3600 ∧
    format_duration (25 * 3600) = format_duration_spec (25 * 3600) :=
  ⟨by decide, (format_duration_conforms (25 * 3600) (by decide)).1⟩

/-- The lexicographic datetime order is asymmetric. -/
theorem dtLt_asymm {a b : CalDateTime} (h : dtLt a b) : ¬ dtLt b a := by
  unfold dtLt at *
  omega

/-- Any datetime on a calendar day strictly precedes any datetime on the
successor day. -/
theorem lt_succDate_any (d : CalDate) (t t' : NTime) :
    dtLt ⟨d, t⟩ ⟨succDate d, t'⟩ := by
  unfold succDate dtLt
  split_ifs <;> simp

/-- C5: a phrase recognized by the bare-time grammar (no " at " part,
`parse_time` succeeds) resolves to today at the parsed time, except that
when that instant is strictly before "now" it resolves to tomorrow at that
time; consequently the result is never strictly before "now" and never
after the same time tomorrow (24 hours ahead). -/
theorem bare_time_resolution (now : CalDateTime) (s : String) (t : NTime)
    (hAt : containsAtSep s.data = false)
    (hpt : parse_time_core s.data = some t) :
    parse_reset_time now s = some (bare_resolution now t) ∧
    (dtLt ⟨now.date, t⟩ now → bare_resolution now t = ⟨succDate now.date, t⟩) ∧
    (¬ dtLt ⟨now.date, t⟩ now → bare_resolution now t = ⟨now.date, t⟩) ∧
    dtLe now (bare_resolution now t) ∧
    dtLe (bare_resolution now t) (addOneDay now) := by
  have hparse : parse_reset_time now s = some (bare_resolution now t) := by
    unfold parse_reset_time bare_resolution
    simp only [hAt, Bool.false_eq_true, if_false, hpt]
    by_cases h : dtLt ⟨now.date, t⟩ now <;> simp [h]
  refine ⟨hparse,
    fun h => by unfold bare_resolution; rw [if_pos h],
    fun h => by unfold bare_resolution; rw [if_neg h], ?_, ?_⟩
  · unfold bare_resolution
    by_cases h : dtLt ⟨now.date, t⟩ now
    · rw [if_pos h]
      exact dtLt_asymm (lt_succDate_any now.date now.time t)
    · rw [if_neg h]
      exact h
  · unfold bare_resolution addOneDay
    by_cases h : dtLt ⟨now.date, t⟩ now
    · rw [if_pos h]
      unfold dtLe dtLt at *
      simp at *
      omega
    · rw [if_neg h]
      exact dtLt_asymm (lt_succDate_any now.date t now.time)

/-- Witness for C5: at 23:00, "3pm" resolves to tomorrow 15:00, which is
neither in the past nor more than 24 hours ahead. -/
theorem bare_time_resolution_witness :
    containsAtSep "3pm".data = false ∧
    parse_time_core "3pm".data = some ⟨15, 0⟩ ∧
    parse_reset_time ⟨⟨2026, 1, 15⟩, ⟨23, 0⟩⟩ "3pm"
      = some (bare_resolution ⟨⟨2026, 1, 15⟩, ⟨23, 0⟩⟩ ⟨15, 0⟩) ∧
    dtLe ⟨⟨2026, 1, 15⟩, ⟨23, 0⟩⟩ (bare_resolution ⟨⟨2026, 1, 15⟩, ⟨23, 0⟩⟩ ⟨15, 0⟩) ∧
    dtLe (bare_resolution ⟨⟨2026, 1, 15⟩, ⟨23, 0⟩⟩ ⟨15, 0⟩)
      (addOneDay ⟨⟨2026, 1, 15⟩, ⟨23, 0⟩⟩) :=
  ⟨by decide, by decide,
   (bare_time_resolution _ "3pm" ⟨15, 0⟩ (by decide) (by decide)).1,
   (bare_time_resolution _ "3pm" ⟨15, 0⟩ (by decide) (by decide)).2.2.2.1,
   (bare_time_resolution _ "3pm" ⟨15, 0⟩ (by decide) (by decide)).2.2.2.2⟩

/-- The Bool-typed year-inference condition of the code agrees with the
propositional "month/day earlier than now's month/day" of the spec. -/
theorem infer_year_spec (now : CalDateTime) (m d : Nat) :
    infer_year now m d
      = if m < now.date.month ∨ (m = now.date.month ∧ d < now.date.day)
        then now.date.year + 1 else now.date.year := by
  unfold infer_year
  by_cases hp : m < now.date.month ∨ (m = now.date.month ∧ d < now.date.day)
  · have hb : (m < now.date.month
        || (m == now.date.month && d < now.date.day)) = true := by
      simp only [Bool.or_eq_true, Bool.and_eq_true, decide_eq_true_eq,
        beq_iff_eq]
      exact hp
    rw [if_pos hp, if_pos hb]
  · have hb : ¬ ((m < now.date.month
        || (m == now.date.month && d < now.date.day)) = true) := by
      simp only [Bool.or_eq_true, Bool.and_eq_true, decide_eq_true_eq,
        beq_iff_eq]
      exact hp
    rw [if_neg hp, if_neg hb]

/-- C6: a phrase recognized by the dated grammar (split on " at ", month
abbreviation, day number, bare time) parses to the inferred year, which is
next year exactly when the parsed month/day is lexicographically earlier
than "now"'s month/day and the current year otherwise; in particular
"Jan 29 at 5:59pm" resolves to the current year when now is Jan 15 and to
the next year when now is Feb 2. -/
theorem dated_time_year_inference (now : CalDateTime) (s : String)
    (p0 p1 mon dayStr : List Char) (m day : Nat) (t : NTime)
    (hAt : containsAtSep s.data = true)
    (hsplit : splitAtSep s.data = [p0, p1])
    (hws : splitWs (trimList p0) = [mon, dayStr])
    (hm : monthNum (lowerStr mon) = some m)
    (hd : parseU32 dayStr = some day)
    (ht : parse_time_core (trimList p1) = some t) :
    parse_reset_time now s
      = (from_ymd_opt (infer_year now m day) m day).map
          (fun d => (⟨d, t⟩ : CalDateTime)) ∧
    infer_year now m day
      = (if m < now.date.month ∨ (m = now.date.month ∧ day < now.date.day)
         then now.date.year + 1 else now.date.year) ∧
    parse_reset_time ⟨⟨2026, 1, 15⟩, ⟨10, 0⟩⟩ "Jan 29 at 5:59pm"
      = some ⟨⟨2026, 1, 29⟩, ⟨17, 59⟩⟩ ∧
    parse_reset_time ⟨⟨2026, 2, 2⟩, ⟨10, 0⟩⟩ "Jan 29 at 5:59pm"
      = some ⟨⟨2027, 1, 29⟩, ⟨17, 59⟩⟩ := by
  refine ⟨?_, infer_year_spec now m day, by decide, by decide⟩
  unfold parse_reset_time
  simp only [hAt, if_true, hsplit, hws, hm, hd, ht]
  cases hy : from_ymd_opt (infer_year now m day) m day <;> simp [hy]

/-- Witness for C6 on "Jan 29 at 5:59pm" with now = Jan 15, 2026. -/
theorem dated_time_year_inference_witness :
    containsAtSep "Jan 29 at 5:59pm".data = true ∧
    parse_reset_time ⟨⟨2026, 1, 15⟩, ⟨10, 0⟩⟩ "Jan 29 at 5:59pm"
      = (from_ymd_opt
            (infer_year ⟨⟨2026, 1, 15⟩, ⟨10, 0⟩⟩ 1 29) 1 29).map
          (fun d => (⟨d, ⟨17, 59⟩⟩ : CalDateTime)) :=
  ⟨by decide,
   (dated_time_year_inference ⟨⟨2026, 1, 15⟩, ⟨10, 0⟩⟩ "Jan 29 at 5:59pm"
     "Jan 29".data "5:59pm".data "Jan".data "29".data 1 29 ⟨17, 59⟩
     (by decide) (by decide) (by decide) (by decide) (by decide)
     (by decide)).1⟩

/-- C10: a dated phrase naming today's month and day with a time-of-day
already earlier than "now" parses to the current year — a past instant —
because the year-inference rule compares only month and day. -/
theorem dated_same_monthday_past (now : CalDateTime) (s : String)
    (p0 p1 mon dayStr : List Char) (t : NTime)
    (hAt : containsAtSep s.data = true)
    (hsplit : splitAtSep s.data = [p0, p1])
    (hws : splitWs (trimList p0) = [mon, dayStr])
    (hm : monthNum (lowerStr mon) = some now.date.month)
    (hd : parseU32 dayStr = some now.date.day)
    (ht : parse_time_core (trimList p1) = some t)
    (hvalid : from_ymd_opt now.date.year now.date.month now.date.day
      = some now.date)
    (htime : t.hour < now.time.hour
      ∨ (t.hour = now.time.hour ∧ t.minute < now.time.minute)) :
    parse_reset_time now s = some ⟨now.date, t⟩ ∧
    dtLt ⟨now.date, t⟩ now := by
  have hy : infer_year now now.date.month now.date.day = now.date.year := by
    unfold infer_year
    have hb : ¬ ((now.date.month < now.date.month
        || (now.date.month == now.date.month
            && now.date.day < now.date.day)) = true) := by
      simp
    rw [if_neg hb]
  constructor
  · unfold parse_reset_time
    simp only [hAt, if_true, hsplit, hws, hm, hd, ht, hy, hvalid]
  · unfold dtLt
    simp
    omega

/-- Witness for C10: at 18:30 on Jan 29, 2026, "Jan 29 at 5:59pm" resolves
to 17:59 the same day — strictly in the past. -/
theorem dated_same_monthday_past_witness :
    parse_reset_time ⟨⟨2026, 1, 29⟩, ⟨18, 30⟩⟩ "Jan 29 at 5:59pm"
      = some ⟨⟨2026, 1, 29⟩, ⟨17, 59⟩⟩ ∧
    dtLt ⟨⟨2026, 1, 29⟩, ⟨17, 59⟩⟩ ⟨⟨2026, 1, 29⟩, ⟨18, 30⟩⟩ :=
  ⟨(dated_same_monthday_past ⟨⟨2026, 1, 29⟩, ⟨18, 30⟩⟩ "Jan 29 at 5:59pm"
      "Jan 29".data "5:59pm".data "Jan".data "29".data ⟨17, 59⟩
      (by decide) (by decide) (by decide) (by decide) (by decide)
      (by decide) (by decide) (by decide)).1,
   (dated_same_monthday_past ⟨⟨2026, 1, 29⟩, ⟨18, 30⟩⟩ "Jan 29 at 5:59pm"
      "Jan 29".data "5:59pm".data "Jan".data "29".data ⟨17, 59⟩
      (by decide) (by decide) (by decide) (by decide) (by decide)
      (by decide) (by decide) (by decide)).2⟩

